import Mathlib

/-!
Verification of the evolvia presentation-ingestion core.

Part 1 embeds the PowerPoint content extractor
(`services/input-service/app/services/ppt_extractor.py` and the
`manual-input-service` variant).  Python strings are modelled as `List Char`,
file bytes as `List Nat`, and the two external collaborators — the
`python-pptx` parser and the LibreOffice converter — as oracle functions
(`parse : List Nat → Option Pres`, `convert : List Nat → Option (List Nat)`),
since their behaviour is outside the repository.  A Python exception crossing
a function boundary is an `Except` error; a `try/except` in the source is a
`match` on that `Except`.  Clock-derived fields (`processing_time_ms`,
`extraction_timestamp`) are omitted: no claim mentions them and they carry no
invariant.
-/

/-- Python `str.strip()`: drop leading and trailing whitespace. -/
def pyStrip (s : List Char) : List Char :=
  ((s.dropWhile Char.isWhitespace).reverse.dropWhile Char.isWhitespace).reverse

/-- Python `" ".join(l)`: interleave a single space between the pieces. -/
def joinSp : List (List Char) → List Char
  | [] => []
  | [x] => x
  | x :: y :: rest => x ++ ' ' :: joinSp (y :: rest)

/-- Python `str.split()` with no separator (used as `len(text.split())`):
split on runs of whitespace, discarding empty pieces.  The accumulator holds
the current in-progress word, reversed. -/
def pyWordsAux : List Char → List Char → List (List Char)
  | [], cur => if cur.isEmpty then [] else [cur.reverse]
  | c :: cs, cur =>
    if c.isWhitespace then
      if cur.isEmpty then pyWordsAux cs [] else cur.reverse :: pyWordsAux cs []
    else
      pyWordsAux cs (c :: cur)

def pyWords (s : List Char) : List (List Char) := pyWordsAux s []

/-- Independent specification-side counter of whitespace-delimited tokens:
fold over the characters counting transitions from gap to token. -/
def tokenCountAux : Bool → List Char → Nat
  | _, [] => 0
  | inTok, c :: cs =>
    if c.isWhitespace then tokenCountAux false cs
    else (if inTok then 0 else 1) + tokenCountAux true cs

def tokenCount (s : List Char) : Nat := tokenCountAux false s

/-- Python `pathlib.Path(name).suffix`: the final extension — the part from
the last dot on, provided that dot is neither the first nor the last
character of the name. -/
def pySuffix (name : List Char) : List Char :=
  match ((name.enum.filter (fun p => p.2 = '.')).map (fun p => p.1)).getLast? with
  | none => []
  | some i => if 0 < i ∧ i + 1 < name.length then name.drop i else []

/-- Python `str.lower()` applied characterwise. -/
def pyLower (s : List Char) : List Char := s.map Char.toLower

namespace PowerPointExtractor

/-- A python-pptx shape: `text = some t` iff `hasattr(shape, "text")`. -/
structure Shape where
  text : Option (List Char)
deriving DecidableEq, Repr

structure Slide where
  shapes : List Shape
deriving DecidableEq, Repr

/-- A parsed presentation as python-pptx exposes it. -/
structure Pres where
  slides : List Slide
deriving DecidableEq, Repr

/-- One entry of the `slides` list built by `_extract_pptx_content`. -/
structure SlideContent where
  slide_number : Nat
  text_content : List (List Char)
  combined_text : List Char
  shape_count : Nat
deriving DecidableEq, Repr

/-- The `metadata` dict.  `file_format` is optional because the
manual-input-service variant does not set it; `error` is set only by the
empty fallback. -/
structure Meta where
  total_slides : Nat
  has_content : Bool
  extractor_version : List Char
  file_format : Option (List Char)
  error : Option (List Char)
deriving DecidableEq, Repr

/-- The `extracted_content` dict returned by every extraction path. -/
structure Extracted where
  filename : List Char
  file_size_bytes : Nat
  slide_count : Nat
  slides : List SlideContent
  all_text_combined : List Char
  word_count : Nat
  character_count : Nat
  metadata : Meta
deriving DecidableEq, Repr

/-- The per-slide fragment list: for each shape with a `text` attribute whose
stripped text is non-empty, the stripped text, in shape order
(`if hasattr(shape, "text") and shape.text.strip()`). -/
def fragments (sl : Slide) : List (List Char) :=
  sl.shapes.filterMap (fun sh =>
    match sh.text with
    | none => none
    | some t => if pyStrip t = [] then none else some (pyStrip t))

/-- The loop body of `_extract_pptx_content` (input-service, lines 41-89),
given a successfully parsed presentation.  `all_text` is the flat list of
fragments across slides, in order, exactly as the single pass builds it. -/
def extract_pptx_core (pres : Pres) (filename : List Char) (fileLen : Nat) :
    Extracted :=
  let slides_content : List SlideContent :=
    pres.slides.enum.map (fun p =>
      { slide_number := p.1 + 1
        text_content := fragments p.2
        combined_text := joinSp (fragments p.2)
        shape_count := p.2.shapes.length })
  let all_text : List (List Char) := (pres.slides.map fragments).flatten
  { filename := filename
    file_size_bytes := fileLen
    slide_count := pres.slides.length
    slides := slides_content
    all_text_combined := joinSp all_text
    word_count := (pyWords (joinSp all_text)).length
    character_count := (joinSp all_text).length
    metadata :=
      { total_slides := pres.slides.length
        has_content := decide (0 < all_text.length)
        extractor_version := "python-pptx-0.6.21".toList
        file_format := some ("pptx".toList)
        error := none } }

/-- Model of `_extract_pptx_content`: parse the bytes with python-pptx; a parse
failure propagates as an exception. -/
def extract_pptx_content (parse : List Nat → Option Pres)
    (content : List Nat) (filename : List Char) : Except Unit Extracted :=
  match parse content with
  | none => Except.error ()
  | some pres => Except.ok (extract_pptx_core pres filename content.length)

/-- Model of `_extract_ppt_fallback`: try the native parse on the original bytes; on
failure return the empty result with a diagnostic metadata note.  (The source
parses twice — `Presentation(...)` then `_extract_pptx_content` — with a
deterministic parser that is one parse.) -/
def extract_ppt_fallback (parse : List Nat → Option Pres)
    (content : List Nat) (filename : List Char) : Extracted :=
  match parse content with
  | some pres => extract_pptx_core pres filename content.length
  | none =>
    { filename := filename
      file_size_bytes := content.length
      slide_count := 0
      slides := []
      all_text_combined := []
      word_count := 0
      character_count := 0
      metadata :=
        { total_slides := 0
          has_content := false
          extractor_version := "fallback".toList
          file_format := some ("ppt".toList)
          error := some ("Legacy .ppt format requires LibreOffice for full extraction".toList) } }

/-- Model of `_extract_ppt_content`: `convert` models `_convert_ppt_to_pptx`
(returning `none` when LibreOffice is unavailable, fails, or times out — the
source returns `None` in each of those cases).  On a successful conversion,
re-enter the native path on the converted bytes and overwrite the two
metadata tags; any exception there (the converted bytes failing to parse) is
caught by the surrounding `except`, which falls back on the original bytes.
The temporary-directory bookkeeping is I/O with no effect on the value. -/
def extract_ppt_content (parse : List Nat → Option Pres)
    (convert : List Nat → Option (List Nat))
    (content : List Nat) (filename : List Char) : Extracted :=
  match convert content with
  | some converted =>
    match extract_pptx_content parse converted filename with
    | Except.ok r =>
      { r with metadata :=
        { r.metadata with
            file_format := some ("ppt".toList)
            extractor_version := "libreoffice + python-pptx".toList } }
    | Except.error _ => extract_ppt_fallback parse content filename
  | none => extract_ppt_fallback parse content filename

/-- Model of `extract_content` (input-service): dispatch on the lower-cased filename
suffix; an unsupported suffix and a native-path parse failure both surface
as the re-raised `ValueError`. -/
def extract_content (parse : List Nat → Option Pres)
    (convert : List Nat → Option (List Nat))
    (content : List Nat) (filename : List Char) : Except Unit Extracted :=
  let file_extension := pyLower (pySuffix filename)
  if file_extension = ".pptx".toList then
    extract_pptx_content parse content filename
  else if file_extension = ".ppt".toList then
    Except.ok (extract_ppt_content parse convert content filename)
  else
    Except.error ()

/-- Model of `extract_content` of the manual-input-service variant: the native path
only, with a metadata dict lacking the `file_format` key. -/
def extract_content_manual (parse : List Nat → Option Pres)
    (content : List Nat) (filename : List Char) : Except Unit Extracted :=
  match parse content with
  | none => Except.error ()
  | some pres =>
    Except.ok { extract_pptx_core pres filename content.length with
      metadata :=
        { (extract_pptx_core pres filename content.length).metadata with
            file_format := none } }

end PowerPointExtractor

section ExtractorChecks

open PowerPointExtractor

def sampleSlide : Slide :=
  Slide.mk [Shape.mk (some ("  Risks ".toList)), Shape.mk (some ("   ".toList)), Shape.mk none]

example : fragments sampleSlide = [("Risks".toList)] := by decide

example : (pyWords ("Revenue Growth +12% YoY Risks".toList)).length = 5 := by decide

example : tokenCount ("Revenue Growth +12% YoY Risks".toList) = 5 := by decide

example : pyLower (pySuffix ("Q3 Review.PPTX".toList)) = ".pptx".toList := by decide

example : joinSp [("a".toList), [], ("b".toList)] = "a  b".toList := by decide

end ExtractorChecks

/-!
Part 2 embeds the RabbitMQ publisher
(`services/input-service/app/services/rabbitmq_publisher.py` and the
`manual-input-service` variant).  Each external pika call is a primitive
whose outcome (normal return vs. raised exception) is drawn from an oracle
`Env`, indexed by that primitive's own invocation count; the publisher state
`MState` carries the two handle slots, the per-primitive invocation counters,
and observation fields (`closeCalls` for `_close_connection` invocations,
`connectCalls`, the `sleeps` performed, and `accepted`, latched when a
`basic_publish` is accepted by the broker).  `time.sleep` is recorded, not
performed.  A handle freshly created by a successful connect reports
`is_closed = false`.
-/

instance exceptDecEq {ε α : Type} [DecidableEq ε] [DecidableEq α] :
    DecidableEq (Except ε α) := fun a b =>
  match a, b with
  | Except.ok x, Except.ok y =>
    if h : x = y then isTrue (by rw [h]) else isFalse (by intro hc; cases hc; exact h rfl)
  | Except.error x, Except.error y =>
    if h : x = y then isTrue (by rw [h]) else isFalse (by intro hc; cases hc; exact h rfl)
  | Except.ok _, Except.error _ => isFalse (by intro hc; cases hc)
  | Except.error _, Except.ok _ => isFalse (by intro hc; cases hc)

/-- A pika connection or channel handle, reduced to its `is_closed` flag. -/
structure Handle where
  is_closed : Bool
deriving DecidableEq, Repr

/-- Outcome oracle for the external pika calls: `f k` is `true` iff the k-th
invocation of that primitive returns normally (for `pub`, iff the broker
accepts the message). -/
structure Env where
  newConn : Nat → Bool
  newChan : Nat → Bool
  declEx : Nat → Bool
  closeChan : Nat → Bool
  closeConn : Nat → Bool
  pde : Nat → Bool
  pub : Nat → Bool

/-- Publisher state: handle slots plus instrumentation counters. -/
structure MState where
  connection : Option Handle
  channel : Option Handle
  nConn : Nat
  nChan : Nat
  nDecl : Nat
  nClChan : Nat
  nClConn : Nat
  nPde : Nat
  nPub : Nat
  closeCalls : Nat
  connectCalls : Nat
  sleeps : List Nat
  accepted : Bool
deriving DecidableEq, Repr

/-- A freshly constructed publisher (`__init__`): no handles, no history. -/
def initState : MState :=
  { connection := none, channel := none, nConn := 0, nChan := 0, nDecl := 0
    nClChan := 0, nClConn := 0, nPde := 0, nPub := 0, closeCalls := 0
    connectCalls := 0, sleeps := [], accepted := false }

def primNewConn (env : Env) (s : MState) : Bool × MState :=
  (env.newConn s.nConn, { s with nConn := s.nConn + 1 })

def primNewChan (env : Env) (s : MState) : Bool × MState :=
  (env.newChan s.nChan, { s with nChan := s.nChan + 1 })

def primDeclEx (env : Env) (s : MState) : Bool × MState :=
  (env.declEx s.nDecl, { s with nDecl := s.nDecl + 1 })

def primCloseChan (env : Env) (s : MState) : Bool × MState :=
  (env.closeChan s.nClChan, { s with nClChan := s.nClChan + 1 })

def primCloseConn (env : Env) (s : MState) : Bool × MState :=
  (env.closeConn s.nClConn, { s with nClConn := s.nClConn + 1 })

def primPde (env : Env) (s : MState) : Bool × MState :=
  (env.pde s.nPde, { s with nPde := s.nPde + 1 })

def primPub (env : Env) (s : MState) : Bool × MState :=
  (env.pub s.nPub,
   { s with nPub := s.nPub + 1, accepted := s.accepted || env.pub s.nPub })

/-- Test `handle is None or handle.is_closed` — the down-test both
`_ensure_connection` and `_close_connection` use. -/
def handleDown : Option Handle → Bool
  | none => true
  | some h => h.is_closed

namespace RabbitMQPublisher

/-- Model of `_close_connection` (input-service, lines 64-79): close the channel if
live, then the connection if live, each in its own `try/except` whose error
is logged and dropped; finally set both slots to `None`.  The primitive
outcomes are consumed but cannot influence the result — that is the
absorption of secondary errors. -/
def close_connection (env : Env) (s : MState) : MState :=
  let s1 := match s.channel with
    | none => s
    | some ch => if ch.is_closed then s else (primCloseChan env s).2
  let s2 := match s1.connection with
    | none => s1
    | some c => if c.is_closed then s1 else (primCloseConn env s1).2
  { s2 with channel := none, connection := none,
            closeCalls := s2.closeCalls + 1 }

/-- Model of `connect` (input-service, lines 19-46): tear down, then create the
connection, the channel, and declare the exchange; the first primitive that
raises aborts the call, the `except` re-raising to the caller. -/
def connect (env : Env) (s0 : MState) : Except Unit Unit × MState :=
  let s := close_connection env { s0 with connectCalls := s0.connectCalls + 1 }
  let r1 := primNewConn env s
  if r1.1 then
    let sA := { r1.2 with connection := some (Handle.mk false) }
    let r2 := primNewChan env sA
    if r2.1 then
      let sB := { r2.2 with channel := some (Handle.mk false) }
      let r3 := primDeclEx env sB
      if r3.1 then (Except.ok (), r3.2) else (Except.error (), r3.2)
    else (Except.error (), r2.2)
  else (Except.error (), r1.2)

/-- Model of `_ensure_connection` (lines 48-62): reconnect when either handle is
absent or closed, otherwise probe with `process_data_events(time_limit=0)`;
any exception in the `try` body — a failed `connect` included — lands in the
`except` handler, which calls `connect` once more and lets its outcome
propagate. -/
def ensure_connection (env : Env) (s : MState) : Except Unit Unit × MState :=
  if handleDown s.connection || handleDown s.channel then
    match connect env s with
    | (Except.ok _, s1) => (Except.ok (), s1)
    | (Except.error _, s1) => connect env s1
  else
    let r := primPde env s
    if r.1 then (Except.ok (), r.2)
    else connect env r.2

/-- The `try` body of one attempt of `publish_skill_event`: ensure the
connection, build the payload (pure — building the dicts, `json.dumps` and
`base64` cannot fail on well-formed inputs), then `basic_publish`. -/
def attemptBody (env : Env) (s : MState) : Except Unit Unit × MState :=
  match ensure_connection env s with
  | (Except.error e, s1) => (Except.error e, s1)
  | (Except.ok _, s1) =>
    let r := primPub env s1
    if r.1 then (Except.ok (), r.2) else (Except.error (), r.2)

def maxRetries : Nat := 3

def retryDelay : Nat := 1

/-- The `for attempt in range(self.max_retries)` loop of
`publish_skill_event` (lines 87-156): on success return `True`; on an
exception, if this was not the last attempt, `_close_connection()` then
`time.sleep(retry_delay * (attempt + 1))` and continue, else return `False`.
The empty-list case is the `return False` after the loop. -/
def publishLoop (env : Env) : List Nat → MState → Except Unit Bool × MState
  | [], s => (Except.ok false, s)
  | attempt :: rest, s =>
    match attemptBody env s with
    | (Except.ok _, s1) => (Except.ok true, s1)
    | (Except.error _, s1) =>
      if attempt < maxRetries - 1 then
        let s2 := close_connection env s1
        let s3 := { s2 with sleeps := s2.sleeps ++ [retryDelay * (attempt + 1)] }
        publishLoop env rest s3
      else (Except.ok false, s1)

def publish_skill_event (env : Env) (s : MState) : Except Unit Bool × MState :=
  publishLoop env (List.range maxRetries) s

/-- Model of `close` (lines 158-165): logging around `_close_connection`, inside a
`try/except` that can only be reached by the logging itself. -/
def close (env : Env) (s : MState) : MState := close_connection env s

/-- Model of `health_check` (lines 167-174): `_ensure_connection` reported as a
boolean. -/
def health_check (env : Env) (s : MState) : Bool × MState :=
  match ensure_connection env s with
  | (Except.ok _, s1) => (true, s1)
  | (Except.error _, s1) => (false, s1)

end RabbitMQPublisher

namespace ManualPublisher

/-- Model of `connect` of the manual-input-service variant (lines 16-36): like the
input-service one but with no prior teardown — a failed primitive leaves the
previously stored handles in place. -/
def connect (env : Env) (s0 : MState) : Except Unit Unit × MState :=
  let s := { s0 with connectCalls := s0.connectCalls + 1 }
  let r1 := primNewConn env s
  if r1.1 then
    let sA := { r1.2 with connection := some (Handle.mk false) }
    let r2 := primNewChan env sA
    if r2.1 then
      let sB := { r2.2 with channel := some (Handle.mk false) }
      let r3 := primDeclEx env sB
      if r3.1 then (Except.ok (), r3.2) else (Except.error (), r3.2)
    else (Except.error (), r2.2)
  else (Except.error (), r1.2)

/-- Model of `publish_skill_event` of the manual-input-service variant (lines 38-91):
one `try` body — reconnect only when `not self.connection or
self.connection.is_closed`, build the payload, `self.channel.basic_publish`
(an `AttributeError` on a `None` channel raises before reaching the broker)
— with a single `except` returning `False`.  No teardown, no sleep, no
retry. -/
def publish_skill_event (env : Env) (s : MState) : Except Unit Bool × MState :=
  let step : Except Unit Unit × MState :=
    if handleDown s.connection then connect env s else (Except.ok (), s)
  match step with
  | (Except.error _, s1) => (Except.ok false, s1)
  | (Except.ok _, s1) =>
    match s1.channel with
    | none => (Except.ok false, s1)
    | some _ =>
      let r := primPub env s1
      (Except.ok r.1, r.2)

end ManualPublisher

section PublisherChecks

/-- Broker entirely healthy. -/
def envUp : Env :=
  { newConn := fun _ => true, newChan := fun _ => true, declEx := fun _ => true
    closeChan := fun _ => true, closeConn := fun _ => true
    pde := fun _ => true, pub := fun _ => true }

/-- Broker refusing every connection attempt. -/
def envDown : Env :=
  { newConn := fun _ => false, newChan := fun _ => true, declEx := fun _ => true
    closeChan := fun _ => true, closeConn := fun _ => true
    pde := fun _ => true, pub := fun _ => true }

/-- Connections succeed; the first two `basic_publish` calls are refused,
the third is accepted. -/
def envThird : Env :=
  { newConn := fun _ => true, newChan := fun _ => true, declEx := fun _ => true
    closeChan := fun _ => true, closeConn := fun _ => true
    pde := fun _ => true, pub := fun k => decide (2 ≤ k) }

example : (RabbitMQPublisher.publish_skill_event envUp initState).1 = Except.ok true := by decide

example : (RabbitMQPublisher.publish_skill_event envDown initState).1 = Except.ok false := by decide

example :
    (RabbitMQPublisher.publish_skill_event envDown initState).2.closeCalls = 8 := by decide

example :
    (RabbitMQPublisher.publish_skill_event envThird initState).2.sleeps = [1, 2] := by decide

example :
    (RabbitMQPublisher.publish_skill_event envThird initState).2.nClConn = 2 := by decide

example :
    (RabbitMQPublisher.publish_skill_event envThird initState).2.nConn = 3 := by decide

example : (ManualPublisher.publish_skill_event envDown initState).1 = Except.ok false := by decide

example : (ManualPublisher.publish_skill_event envUp initState).1 = Except.ok true := by decide

end PublisherChecks

/-!
Supporting lemmas about the text utilities.
-/

theorem joinSp_cons (a : List Char) (l : List (List Char)) (h : l ≠ []) :
    joinSp (a :: l) = a ++ ' ' :: joinSp l := by
  cases l with
  | nil => exact absurd rfl h
  | cons b l' => rfl

theorem joinSp_append (xs ys : List (List Char)) (hx : xs ≠ []) (hy : ys ≠ []) :
    joinSp (xs ++ ys) = joinSp xs ++ ' ' :: joinSp ys := by
  induction xs with
  | nil => exact absurd rfl hx
  | cons a t ih =>
    cases t with
    | nil =>
      rw [List.singleton_append, joinSp_cons a ys hy]
      rfl
    | cons b t' =>
      have hne : (b :: t') ++ ys ≠ [] := by simp
      rw [List.cons_append, joinSp_cons a ((b :: t') ++ ys) hne,
          ih (by simp), joinSp_cons a (b :: t') (by simp), List.append_assoc]
      rfl

theorem joinSp_ne_nil (p : List (List Char)) (hp : p ≠ [])
    (hfrag : ∀ f ∈ p, f ≠ []) : joinSp p ≠ [] := by
  cases p with
  | nil => exact absurd rfl hp
  | cons a t =>
    cases t with
    | nil => exact hfrag a (by simp)
    | cons b t' =>
      rw [joinSp_cons a (b :: t') (by simp)]
      intro hc
      have := congrArg List.length hc
      simp at this

theorem flatten_eq_nil_of_all_nil (l : List (List (List Char)))
    (h : ∀ p ∈ l, p = []) : l.flatten = [] := by
  induction l with
  | nil => rfl
  | cons a t ih =>
    have ha : a = [] := h a (by simp)
    rw [List.flatten_cons, ha, List.nil_append]
    exact ih (fun p hp => h p (by simp [hp]))

theorem exists_ne_nil_of_flatten_ne_nil (l : List (List (List Char)))
    (h : l.flatten ≠ []) : ∃ p ∈ l, p ≠ [] := by
  by_contra hc
  push_neg at hc
  exact h (flatten_eq_nil_of_all_nil l hc)

/-- The central joining identity: the flat space-join of all fragments
equals the space-join of the non-empty per-slide joins, provided every
fragment is non-empty. -/
theorem joinSp_flatten_filter (parts : List (List (List Char)))
    (hfrag : ∀ p ∈ parts, ∀ f ∈ p, f ≠ []) :
    joinSp parts.flatten
      = joinSp ((parts.map joinSp).filter (fun t => !t.isEmpty)) := by
  induction parts with
  | nil => rfl
  | cons p rest ih =>
    have hfragp : ∀ f ∈ p, f ≠ [] := hfrag p (by simp)
    have hfragr : ∀ q ∈ rest, ∀ f ∈ q, f ≠ [] :=
      fun q hq => hfrag q (by simp [hq])
    rw [List.flatten_cons, List.map_cons, List.filter_cons]
    cases hp : p with
    | nil =>
      simp only [joinSp, List.isEmpty_nil, Bool.not_true, List.nil_append]
      exact ih hfragr
    | cons f0 p' =>
      have hpne : p ≠ [] := by rw [hp]; simp
      rw [← hp]
      have hjne : joinSp p ≠ [] := joinSp_ne_nil p hpne hfragp
      have hkeep : (!(joinSp p).isEmpty) = true := by
        cases hjp : joinSp p with
        | nil => exact absurd hjp hjne
        | cons c cs => rfl
      rw [hkeep]
      simp only [if_true]
      by_cases hrf : rest.flatten = []
      · have hall : ∀ q ∈ rest, q = [] := by
          intro q hq
          by_contra hqne
          cases hql : q with
          | nil => exact hqne hql
          | cons g q' =>
            have : q.flatten ≠ [] → True := fun _ => trivial
            have hmem : ∀ x ∈ q, x ∈ rest.flatten := by
              intro x hx
              exact List.mem_flatten.mpr ⟨q, hq, hx⟩
            have : g ∈ rest.flatten := hmem g (by rw [hql]; simp)
            rw [hrf] at this
            simp at this
        have hfilt : (rest.map joinSp).filter (fun t => !t.isEmpty) = [] := by
          rw [List.filter_eq_nil_iff]
          intro t ht
          obtain ⟨q, hq, hqt⟩ := List.mem_map.mp ht
          rw [hall q hq] at hqt
          rw [← hqt]
          simp [joinSp]
        rw [hrf, hfilt, List.append_nil]
        rfl
      · have hfne : (rest.map joinSp).filter (fun t => !t.isEmpty) ≠ [] := by
          obtain ⟨q, hq, hqne⟩ := exists_ne_nil_of_flatten_ne_nil rest hrf
          have hjq : joinSp q ≠ [] := joinSp_ne_nil q hqne (hfragr q hq)
          have hkq : (!(joinSp q).isEmpty) = true := by
            cases hjq2 : joinSp q with
            | nil => exact absurd hjq2 hjq
            | cons c cs => rfl
          intro hc
          have : joinSp q ∈ (rest.map joinSp).filter (fun t => !t.isEmpty) :=
            List.mem_filter.mpr ⟨List.mem_map.mpr ⟨q, hq, rfl⟩, hkq⟩
          rw [hc] at this
          simp at this
        rw [joinSp_append p rest.flatten hpne hrf, ih hfragr,
            joinSp_cons (joinSp p) _ hfne]

/-- Lemma: `pyWordsAux` produces one word per gap-to-token transition, plus the
pending word in the accumulator. -/
theorem pyWordsAux_length (s : List Char) :
    ∀ cur : List Char,
      (pyWordsAux s cur).length
        = tokenCountAux (!cur.isEmpty) s + (if cur.isEmpty then 0 else 1) := by
  induction s with
  | nil =>
    intro cur
    cases cur with
    | nil => rfl
    | cons c cs => rfl
  | cons c cs ih =>
    intro cur
    by_cases hw : c.isWhitespace
    · cases cur with
      | nil =>
        simp [pyWordsAux, tokenCountAux, hw, ih []]
      | cons a t =>
        simp [pyWordsAux, tokenCountAux, hw, ih []]
    · cases cur with
      | nil =>
        simp [pyWordsAux, tokenCountAux, hw, ih [c]]
        omega
      | cons a t =>
        simp [pyWordsAux, tokenCountAux, hw, ih (c :: a :: t)]

theorem pyWords_length_eq_tokenCount (s : List Char) :
    (pyWords s).length = tokenCount s := by
  have h := pyWordsAux_length s []
  simpa [pyWords, tokenCount] using h

namespace PowerPointExtractor

theorem enumFrom_map_comp_snd {α β : Type} (f : α → β) :
    ∀ (n : Nat) (l : List α), (List.enumFrom n l).map (fun p => f p.2) = l.map f := by
  intro n l
  induction l generalizing n with
  | nil => rfl
  | cons a t ih => simp [List.enumFrom, ih]

/-- The `combined_text` column of the result is the per-slide fragment
join. -/
theorem core_slides_combined (pres : Pres) (fn : List Char) (len : Nat) :
    ((extract_pptx_core pres fn len).slides).map (fun sc => sc.combined_text)
      = pres.slides.map (fun sl => joinSp (fragments sl)) := by
  simp only [extract_pptx_core, List.map_map]
  exact enumFrom_map_comp_snd (fun sl => joinSp (fragments sl)) 0 pres.slides

theorem mem_fragments_ne_nil (sl : Slide) (f : List Char)
    (hf : f ∈ fragments sl) : f ≠ [] := by
  unfold fragments at hf
  obtain ⟨sh, _, hsh⟩ := List.mem_filterMap.mp hf
  cases ht : sh.text with
  | none => rw [ht] at hsh; simp at hsh
  | some t =>
    rw [ht] at hsh
    by_cases hs : pyStrip t = []
    · simp [hs] at hsh
    · simp [hs] at hsh
      rw [← hsh]
      exact hs

/-- Lemma: `word_count` of the native-path result counts the tokens of its
`all_text_combined`. -/
theorem core_word_count (pres : Pres) (fn : List Char) (len : Nat) :
    (extract_pptx_core pres fn len).word_count
      = tokenCount (extract_pptx_core pres fn len).all_text_combined := by
  simp [extract_pptx_core, pyWords_length_eq_tokenCount]

/-- Lemma: `all_text_combined` of the native-path result is the space-join of the
non-empty per-slide joins. -/
theorem core_all_text (pres : Pres) (fn : List Char) (len : Nat) :
    (extract_pptx_core pres fn len).all_text_combined
      = joinSp ((((extract_pptx_core pres fn len).slides).map
          (fun sc => sc.combined_text)).filter (fun t => !t.isEmpty)) := by
  rw [core_slides_combined]
  have hmap : pres.slides.map (fun sl => joinSp (fragments sl))
      = (pres.slides.map fragments).map joinSp := by
    rw [List.map_map]
    rfl
  rw [hmap]
  have hfrag : ∀ p ∈ pres.slides.map fragments, ∀ f ∈ p, f ≠ [] := by
    intro p hp f hf
    obtain ⟨sl, _, hsl⟩ := List.mem_map.mp hp
    exact mem_fragments_ne_nil sl f (hsl ▸ hf)
  have := joinSp_flatten_filter (pres.slides.map fragments) hfrag
  simpa [extract_pptx_core] using this

end PowerPointExtractor

/-!
Concrete extraction scenarios used by counterexamples and witnesses.
-/

/-- Two slides: one shape with text, one with no shapes at all. -/
def c1pres : PowerPointExtractor.Pres :=
  PowerPointExtractor.Pres.mk
    [PowerPointExtractor.Slide.mk [PowerPointExtractor.Shape.mk (some ("a".toList))],
     PowerPointExtractor.Slide.mk []]

def c1parse : List Nat → Option PowerPointExtractor.Pres := fun _ => some c1pres

def convNone : List Nat → Option (List Nat) := fun _ => none

def noParse : List Nat → Option PowerPointExtractor.Pres := fun _ => none

def c1bytes : List Nat := [1, 2]

def c1name : List Char := "deck.pptx".toList

def c1ext : PowerPointExtractor.Extracted :=
  PowerPointExtractor.extract_pptx_core c1pres c1name c1bytes.length

/-- C1 counterexample: on a successfully parsed two-slide document whose
second slide contributes no text, `all_text_combined` is `"a"` while the
space-joined concatenation of the slides' `combined_text` values is `"a "`
(a trailing space from the empty slide), so the claimed identity fails. -/
theorem C1_counterexample :
    PowerPointExtractor.extract_content c1parse convNone c1bytes c1name
        = Except.ok c1ext
    ∧ c1ext.slide_count = 2
    ∧ c1ext.all_text_combined
        ≠ joinSp ((c1ext.slides).map (fun sc => sc.combined_text)) := by
  decide

/-- C1 (amended): for a native-format document that parses with slides
S1..Sn, `extract_content` succeeds, `slide_count = n`, and
`all_text_combined` is the space-joined concatenation of the *non-empty*
`combined_text` values in slide order (slides without text contribute
nothing, rather than an empty joined piece); the manual-input-service
variant returns the same content with its reduced metadata. -/
theorem C1_amended (parse : List Nat → Option PowerPointExtractor.Pres)
    (convert : List Nat → Option (List Nat))
    (content : List Nat) (filename : List Char) (pres : PowerPointExtractor.Pres)
    (hsuf : pyLower (pySuffix filename) = ".pptx".toList)
    (hparse : parse content = some pres) :
    PowerPointExtractor.extract_content parse convert content filename
      = Except.ok (PowerPointExtractor.extract_pptx_core pres filename content.length)
    ∧ (PowerPointExtractor.extract_pptx_core pres filename content.length).slide_count
        = pres.slides.length
    ∧ (PowerPointExtractor.extract_pptx_core pres filename content.length).all_text_combined
        = joinSp ((((PowerPointExtractor.extract_pptx_core pres filename content.length).slides).map
            (fun sc => sc.combined_text)).filter (fun t => !t.isEmpty))
    ∧ PowerPointExtractor.extract_content_manual parse content filename
      = Except.ok { PowerPointExtractor.extract_pptx_core pres filename content.length with
          metadata :=
            { (PowerPointExtractor.extract_pptx_core pres filename content.length).metadata with
                file_format := none } } := by
  refine ⟨?_, rfl, PowerPointExtractor.core_all_text pres filename content.length, ?_⟩
  · simp [PowerPointExtractor.extract_content, hsuf,
          PowerPointExtractor.extract_pptx_content, hparse]
  · simp [PowerPointExtractor.extract_content_manual, hparse]

/-- C1 witness: the amended theorem applied to the concrete two-slide
document. -/
theorem C1_witness :
    (pyLower (pySuffix c1name) = ".pptx".toList ∧ c1parse c1bytes = some c1pres)
    ∧ (PowerPointExtractor.extract_content c1parse convNone c1bytes c1name
        = Except.ok (PowerPointExtractor.extract_pptx_core c1pres c1name c1bytes.length)
      ∧ (PowerPointExtractor.extract_pptx_core c1pres c1name c1bytes.length).slide_count
          = c1pres.slides.length
      ∧ (PowerPointExtractor.extract_pptx_core c1pres c1name c1bytes.length).all_text_combined
          = joinSp ((((PowerPointExtractor.extract_pptx_core c1pres c1name c1bytes.length).slides).map
              (fun sc => sc.combined_text)).filter (fun t => !t.isEmpty))
      ∧ PowerPointExtractor.extract_content_manual c1parse c1bytes c1name
        = Except.ok { PowerPointExtractor.extract_pptx_core c1pres c1name c1bytes.length with
            metadata :=
              { (PowerPointExtractor.extract_pptx_core c1pres c1name c1bytes.length).metadata with
                  file_format := none } }) :=
  ⟨⟨by decide, rfl⟩, C1_amended c1parse convNone c1bytes c1name c1pres (by decide) rfl⟩

namespace PowerPointExtractor

/-- Lemma: `word_count` of the empty-fallback result also counts its (empty)
text. -/
theorem fallback_word_count (parse : List Nat → Option Pres)
    (content : List Nat) (filename : List Char) :
    (extract_ppt_fallback parse content filename).word_count
      = tokenCount (extract_ppt_fallback parse content filename).all_text_combined := by
  unfold extract_ppt_fallback
  cases parse content with
  | none => rfl
  | some pres => exact core_word_count pres filename content.length

/-- Lemma: `word_count` over every path of the legacy branch. -/
theorem ppt_word_count (parse : List Nat → Option Pres)
    (convert : List Nat → Option (List Nat))
    (content : List Nat) (filename : List Char) :
    (extract_ppt_content parse convert content filename).word_count
      = tokenCount (extract_ppt_content parse convert content filename).all_text_combined := by
  unfold extract_ppt_content
  cases hcv : convert content with
  | none => exact fallback_word_count parse content filename
  | some cv =>
    dsimp only
    unfold extract_pptx_content
    cases hp : parse cv with
    | none => exact fallback_word_count parse content filename
    | some pres => exact core_word_count pres filename cv.length

end PowerPointExtractor

/-- C7: every `ExtractedContent` any extraction path returns — input-service
`extract_content` on either format, or the manual-input-service variant —
has `word_count` equal to the number of whitespace-delimited tokens of
`all_text_combined`; in particular empty text gives `word_count = 0`. -/
theorem C7_word_count (parse : List Nat → Option PowerPointExtractor.Pres)
    (convert : List Nat → Option (List Nat))
    (content : List Nat) (filename : List Char)
    (e : PowerPointExtractor.Extracted)
    (h : PowerPointExtractor.extract_content parse convert content filename = Except.ok e
       ∨ PowerPointExtractor.extract_content_manual parse content filename = Except.ok e) :
    e.word_count = tokenCount e.all_text_combined
    ∧ (e.all_text_combined = [] → e.word_count = 0) := by
  have hmain : e.word_count = tokenCount e.all_text_combined := by
    rcases h with h | h
    · unfold PowerPointExtractor.extract_content at h
      dsimp only at h
      split at h
      · unfold PowerPointExtractor.extract_pptx_content at h
        cases hp : parse content with
        | none => rw [hp] at h; cases h
        | some pres =>
          rw [hp] at h
          cases h
          exact PowerPointExtractor.core_word_count pres filename content.length
      · split at h
        · cases h
          exact PowerPointExtractor.ppt_word_count parse convert content filename
        · cases h
    · unfold PowerPointExtractor.extract_content_manual at h
      cases hp : parse content with
      | none => rw [hp] at h; cases h
      | some pres =>
        rw [hp] at h
        cases h
        exact PowerPointExtractor.core_word_count pres filename content.length
  refine ⟨hmain, ?_⟩
  intro h0
  rw [hmain, h0]
  rfl

/-- C7 witness: the theorem applied to the concrete two-slide document. -/
theorem C7_witness :
    (PowerPointExtractor.extract_content c1parse convNone c1bytes c1name = Except.ok c1ext
      ∨ PowerPointExtractor.extract_content_manual c1parse c1bytes c1name = Except.ok c1ext)
    ∧ (c1ext.word_count = tokenCount c1ext.all_text_combined
       ∧ (c1ext.all_text_combined = [] → c1ext.word_count = 0)) :=
  ⟨Or.inl (by decide),
   C7_word_count c1parse convNone c1bytes c1name c1ext (Or.inl (by decide))⟩

/-!
Concrete conversion scenario for C2.
-/

def c2pres : PowerPointExtractor.Pres :=
  PowerPointExtractor.Pres.mk
    [PowerPointExtractor.Slide.mk [PowerPointExtractor.Shape.mk (some ("a".toList))]]

def c2parse : List Nat → Option PowerPointExtractor.Pres := fun _ => some c2pres

def c2conv : List Nat → Option (List Nat) := fun _ => some [9]

def c2bytes : List Nat := [3, 4, 5]

def c2name : List Char := "old.ppt".toList

def c2ext : PowerPointExtractor.Extracted :=
  PowerPointExtractor.extract_ppt_content c2parse c2conv c2bytes c2name

/-- C2 counterexample: in a legacy-format extraction whose conversion
succeeds, the code tags `metadata.file_format` with `"ppt"`, not with the
string `"legacy"` the claim names (and `extractor_version` with
`"libreoffice + python-pptx"`). -/
theorem C2_counterexample :
    PowerPointExtractor.extract_content c2parse c2conv c2bytes c2name = Except.ok c2ext
    ∧ c2ext.metadata.file_format = some ("ppt".toList)
    ∧ c2ext.metadata.file_format ≠ some ("legacy".toList) := by
  decide

/-- C2 (amended): for a legacy-format document whose conversion succeeds and
whose converted bytes parse, `extract_content` returns exactly the
native-path extraction of the converted bytes, except that
`metadata.file_format` is the code's legacy tag `"ppt"` and
`metadata.extractor_version` is `"libreoffice + python-pptx"` (recording the
conversion path). -/
theorem C2_conversion (parse : List Nat → Option PowerPointExtractor.Pres)
    (convert : List Nat → Option (List Nat))
    (content : List Nat) (filename : List Char)
    (cv : List Nat) (r : PowerPointExtractor.Extracted)
    (hsuf : pyLower (pySuffix filename) = ".ppt".toList)
    (hconv : convert content = some cv)
    (hok : PowerPointExtractor.extract_pptx_content parse cv filename = Except.ok r) :
    PowerPointExtractor.extract_content parse convert content filename
      = Except.ok { r with metadata :=
          { r.metadata with
              file_format := some ("ppt".toList)
              extractor_version := "libreoffice + python-pptx".toList } } := by
  unfold PowerPointExtractor.extract_content
  rw [hsuf]
  have hne : (".ppt".toList = ".pptx".toList) = False := by decide
  simp only [hne, if_false]
  have htr : (".ppt".toList = ".ppt".toList) = True := by decide
  simp only [htr, if_true]
  unfold PowerPointExtractor.extract_ppt_content
  rw [hconv]
  dsimp only
  rw [hok]

/-- C2 witness: the amended theorem applied to the concrete conversion
scenario. -/
theorem C2_witness :
    (pyLower (pySuffix c2name) = ".ppt".toList
      ∧ c2conv c2bytes = some [9]
      ∧ PowerPointExtractor.extract_pptx_content c2parse [9] c2name
          = Except.ok (PowerPointExtractor.extract_pptx_core c2pres c2name 1))
    ∧ PowerPointExtractor.extract_content c2parse c2conv c2bytes c2name
        = Except.ok { PowerPointExtractor.extract_pptx_core c2pres c2name 1 with
            metadata :=
              { (PowerPointExtractor.extract_pptx_core c2pres c2name 1).metadata with
                  file_format := some ("ppt".toList)
                  extractor_version := "libreoffice + python-pptx".toList } } :=
  ⟨⟨by decide, rfl, rfl⟩,
   C2_conversion c2parse c2conv c2bytes c2name [9]
     (PowerPointExtractor.extract_pptx_core c2pres c2name 1) (by decide) rfl rfl⟩

/-- C6: a legacy-format document with no (or failing) converter and bytes
the native parser rejects yields — without raising — the empty result:
no slides, empty text, zero word count, `has_content = false`, and a
diagnostic error note in the metadata. -/
theorem C6_empty_fallback (parse : List Nat → Option PowerPointExtractor.Pres)
    (convert : List Nat → Option (List Nat))
    (content : List Nat) (filename : List Char)
    (hsuf : pyLower (pySuffix filename) = ".ppt".toList)
    (hconv : convert content = none)
    (hparse : parse content = none) :
    ∃ e : PowerPointExtractor.Extracted,
      PowerPointExtractor.extract_content parse convert content filename = Except.ok e
      ∧ e.slide_count = 0
      ∧ e.slides = []
      ∧ e.all_text_combined = []
      ∧ e.word_count = 0
      ∧ e.metadata.has_content = false
      ∧ e.metadata.error
          = some ("Legacy .ppt format requires LibreOffice for full extraction".toList) := by
  refine ⟨PowerPointExtractor.extract_ppt_fallback parse content filename, ?_, ?_⟩
  · unfold PowerPointExtractor.extract_content
    rw [hsuf]
    have hne : (".ppt".toList = ".pptx".toList) = False := by decide
    have htr : (".ppt".toList = ".ppt".toList) = True := by decide
    simp only [hne, if_false, htr, if_true]
    unfold PowerPointExtractor.extract_ppt_content
    rw [hconv]
  · unfold PowerPointExtractor.extract_ppt_fallback
    rw [hparse]
    exact ⟨rfl, rfl, rfl, rfl, rfl, rfl⟩

/-- C6 witness: the theorem applied to a concrete unparseable legacy
document with no converter. -/
theorem C6_witness :
    (pyLower (pySuffix ("old.ppt".toList)) = ".ppt".toList
      ∧ convNone c2bytes = none
      ∧ noParse c2bytes = none)
    ∧ ∃ e : PowerPointExtractor.Extracted,
        PowerPointExtractor.extract_content noParse convNone c2bytes ("old.ppt".toList)
          = Except.ok e
        ∧ e.slide_count = 0
        ∧ e.slides = []
        ∧ e.all_text_combined = []
        ∧ e.word_count = 0
        ∧ e.metadata.has_content = false
        ∧ e.metadata.error
            = some ("Legacy .ppt format requires LibreOffice for full extraction".toList) :=
  ⟨⟨by decide, rfl, rfl⟩,
   C6_empty_fallback noParse convNone c2bytes ("old.ppt".toList) (by decide) rfl rfl⟩

/-!
Supporting lemmas about the publisher.
-/

/-- Lemma: `_close_connection` in closed form: its result never depends on the
outcomes of the underlying `close()` primitives — both are attempted (each
bumping its invocation counter exactly when its handle is live), any error
is absorbed, and both slots end up `None`. -/
theorem close_connection_eq (env : Env) (s : MState) :
    RabbitMQPublisher.close_connection env s
      = { s with channel := none
                 connection := none
                 nClChan := s.nClChan + (if handleDown s.channel then 0 else 1)
                 nClConn := s.nClConn + (if handleDown s.connection then 0 else 1)
                 closeCalls := s.closeCalls + 1 } := by
  obtain ⟨conn, chan, a1, a2, a3, a4, a5, a6, a7, a8, a9, a10, a11⟩ := s
  unfold RabbitMQPublisher.close_connection handleDown
  cases chan with
  | none =>
    cases conn with
    | none => simp
    | some c => cases hc : c.is_closed <;> simp [primCloseConn, hc]
  | some ch =>
    cases hch : ch.is_closed with
    | true =>
      cases conn with
      | none => simp [hch]
      | some c => cases hc : c.is_closed <;> simp [primCloseConn, hch, hc]
    | false =>
      cases conn with
      | none => simp [primCloseChan, hch]
      | some c =>
        cases hc : c.is_closed <;> simp [primCloseChan, primCloseConn, hch, hc]

/-- Lemma: `connect` never touches the `basic_publish` machinery: the broker
acceptance flag is untouched. -/
theorem connect_accepted (env : Env) (s : MState) :
    (RabbitMQPublisher.connect env s).2.accepted = s.accepted := by
  unfold RabbitMQPublisher.connect
  dsimp only
  rw [close_connection_eq]
  dsimp only [primNewConn, primNewChan, primDeclEx]
  split <;> (try split) <;> (try split) <;> rfl

theorem ensure_accepted (env : Env) (s : MState) :
    (RabbitMQPublisher.ensure_connection env s).2.accepted = s.accepted := by
  unfold RabbitMQPublisher.ensure_connection
  by_cases hd : (handleDown s.connection || handleDown s.channel) = true
  · rw [if_pos hd]
    rcases hc : RabbitMQPublisher.connect env s with ⟨r, s1⟩
    have h1 : s1.accepted = s.accepted := by
      have := connect_accepted env s
      rw [hc] at this
      exact this
    cases r with
    | ok u => simpa using h1
    | error u =>
      dsimp only
      have := connect_accepted env s1
      rw [this]
      exact h1
  · rw [if_neg hd]
    dsimp only [primPde]
    split
    · rfl
    · have := connect_accepted env { s with nPde := s.nPde + 1 }
      simpa using this

theorem attemptBody_ok_accepted (env : Env) (s : MState) (u : Unit) (s1 : MState)
    (h : RabbitMQPublisher.attemptBody env s = (Except.ok u, s1)) :
    s1.accepted = true := by
  unfold RabbitMQPublisher.attemptBody at h
  rcases he : RabbitMQPublisher.ensure_connection env s with ⟨r, s2⟩
  rw [he] at h
  cases r with
  | error v => cases h
  | ok v =>
    dsimp only [primPub] at h
    by_cases hp : env.pub s2.nPub = true
    · rw [if_pos hp] at h
      cases h
      simp [hp]
    · rw [if_neg hp] at h
      cases h

theorem attemptBody_err_accepted (env : Env) (s : MState) (u : Unit) (s1 : MState)
    (h : RabbitMQPublisher.attemptBody env s = (Except.error u, s1)) :
    s1.accepted = s.accepted := by
  unfold RabbitMQPublisher.attemptBody at h
  rcases he : RabbitMQPublisher.ensure_connection env s with ⟨r, s2⟩
  rw [he] at h
  have h2 : s2.accepted = s.accepted := by
    have := ensure_accepted env s
    rw [he] at this
    exact this
  cases r with
  | error v =>
    cases h
    exact h2
  | ok v =>
    dsimp only [primPub] at h
    by_cases hp : env.pub s2.nPub = true
    · rw [if_pos hp] at h
      cases h
    · rw [if_neg hp] at h
      cases h
      simp [hp, h2]

/-- The retry loop always returns a boolean normally, and that boolean is
`true` exactly when some `basic_publish` during the call was accepted by
the broker (given the latch started `false`). -/
theorem publishLoop_spec (env : Env) (l : List Nat) :
    ∀ s : MState, ∃ b : Bool, ∃ s' : MState,
      RabbitMQPublisher.publishLoop env l s = (Except.ok b, s')
      ∧ (b = true → s'.accepted = true)
      ∧ (b = false → s'.accepted = s.accepted) := by
  induction l with
  | nil =>
    intro s
    exact ⟨false, s, rfl, by simp, fun _ => rfl⟩
  | cons k rest ih =>
    intro s
    rcases hb : RabbitMQPublisher.attemptBody env s with ⟨r, s1⟩
    cases r with
    | ok u =>
      refine ⟨true, s1, ?_, fun _ => attemptBody_ok_accepted env s u s1 hb, ?_⟩
      · unfold RabbitMQPublisher.publishLoop
        rw [hb]
      · intro hc; cases hc
    | error u =>
      by_cases hk : k < RabbitMQPublisher.maxRetries - 1
      · rcases ih { RabbitMQPublisher.close_connection env s1 with
            sleeps := (RabbitMQPublisher.close_connection env s1).sleeps
              ++ [RabbitMQPublisher.retryDelay * (k + 1)] } with ⟨b, s', hl, ht, hf⟩
        refine ⟨b, s', ?_, ht, ?_⟩
        · unfold RabbitMQPublisher.publishLoop
          rw [hb]
          dsimp only
          rw [if_pos hk]
          exact hl
        · intro hbf
          have hacc1 : s1.accepted = s.accepted :=
            attemptBody_err_accepted env s u s1 hb
          have hacc2 : (RabbitMQPublisher.close_connection env s1).accepted
              = s1.accepted := by
            rw [close_connection_eq]
          rw [hf hbf]
          simpa [hacc2] using hacc1
      · refine ⟨false, s1, ?_, ?_, ?_⟩
        · unfold RabbitMQPublisher.publishLoop
          rw [hb]
          dsimp only
          rw [if_neg hk]
        · intro hc; cases hc
        · intro _
          exact attemptBody_err_accepted env s u s1 hb

theorem manual_connect_accepted (env : Env) (s : MState) :
    (ManualPublisher.connect env s).2.accepted = s.accepted := by
  unfold ManualPublisher.connect
  dsimp only [primNewConn, primNewChan, primDeclEx]
  split <;> (try split) <;> (try split) <;> rfl

/-- The manual-variant `connect` performs no close, no sleep, no publish,
no liveness probe, and counts as exactly one reconnection. -/
theorem manual_connect_frame (env : Env) (s : MState) :
    (ManualPublisher.connect env s).2.nPub = s.nPub
    ∧ (ManualPublisher.connect env s).2.closeCalls = s.closeCalls
    ∧ (ManualPublisher.connect env s).2.nClChan = s.nClChan
    ∧ (ManualPublisher.connect env s).2.nClConn = s.nClConn
    ∧ (ManualPublisher.connect env s).2.sleeps = s.sleeps
    ∧ (ManualPublisher.connect env s).2.nPde = s.nPde
    ∧ (ManualPublisher.connect env s).2.connectCalls = s.connectCalls + 1 := by
  unfold ManualPublisher.connect
  dsimp only [primNewConn, primNewChan, primDeclEx]
  split <;> (try split) <;> (try split) <;> simp

theorem manual_publish_spec (env : Env) (s : MState) :
    ∃ b : Bool, ∃ s' : MState,
      ManualPublisher.publish_skill_event env s = (Except.ok b, s')
      ∧ (b = true → s'.accepted = true)
      ∧ (b = false → s'.accepted = s.accepted) := by
  unfold ManualPublisher.publish_skill_event
  by_cases hd : handleDown s.connection = true
  · rw [if_pos hd]
    rcases hc : ManualPublisher.connect env s with ⟨r, s1⟩
    have h1 : s1.accepted = s.accepted := by
      have := manual_connect_accepted env s
      rw [hc] at this
      exact this
    cases r with
    | error u =>
      exact ⟨false, s1, rfl, by simp, fun _ => h1⟩
    | ok u =>
      dsimp only
      rcases hch : s1.channel with _ | ch
      · exact ⟨false, s1, rfl, by simp, fun _ => h1⟩
      · dsimp only [primPub]
        refine ⟨env.pub s1.nPub, _, rfl, ?_, ?_⟩
        · intro hb
          simp [hb]
        · intro hb
          simp [hb, h1]
  · rw [if_neg hd]
    dsimp only
    rcases hch : s.channel with _ | ch
    · exact ⟨false, s, rfl, by simp, fun _ => rfl⟩
    · dsimp only [primPub]
      refine ⟨env.pub s.nPub, _, rfl, ?_, ?_⟩
      · intro hb
        simp [hb]
      · intro hb
        simp [hb]

/-- C3: for every broker behaviour `publish_skill_event` — in both service
variants — returns normally with a boolean: `true` exactly when the broker
accepted the message during the call, `false` when the attempts were
exhausted; no exception propagates to the caller. -/
theorem C3_publish_never_raises (env : Env) (s : MState)
    (h : s.accepted = false) :
    (∃ b : Bool, ∃ s' : MState,
        RabbitMQPublisher.publish_skill_event env s = (Except.ok b, s')
        ∧ (b = true ↔ s'.accepted = true))
    ∧ (∃ b : Bool, ∃ s' : MState,
        ManualPublisher.publish_skill_event env s = (Except.ok b, s')
        ∧ (b = true ↔ s'.accepted = true)) := by
  constructor
  · rcases publishLoop_spec env (List.range RabbitMQPublisher.maxRetries) s
      with ⟨b, s', hl, ht, hf⟩
    refine ⟨b, s', hl, ht, ?_⟩
    intro ha
    cases hb : b with
    | true => rfl
    | false =>
      rw [hb] at hf
      rw [hf rfl, h] at ha
      cases ha
  · rcases manual_publish_spec env s with ⟨b, s', hl, ht, hf⟩
    refine ⟨b, s', hl, ht, ?_⟩
    intro ha
    cases hb : b with
    | true => rfl
    | false =>
      rw [hb] at hf
      rw [hf rfl, h] at ha
      cases ha

/-- C3 witness: both variants on a healthy broker from a fresh publisher. -/
theorem C3_witness :
    initState.accepted = false
    ∧ ((∃ b : Bool, ∃ s' : MState,
          RabbitMQPublisher.publish_skill_event envUp initState = (Except.ok b, s')
          ∧ (b = true ↔ s'.accepted = true))
       ∧ (∃ b : Bool, ∃ s' : MState,
          ManualPublisher.publish_skill_event envUp initState = (Except.ok b, s')
          ∧ (b = true ↔ s'.accepted = true))) :=
  ⟨rfl, C3_publish_never_raises envUp initState rfl⟩

/-- C10: the manual-input-service `publish_skill_event` makes at most one
`basic_publish` attempt, never tears anything down (`_close_connection`
count and both handle-close primitives untouched), never sleeps, never
probes liveness, and reconnects exactly when the connection handle is
absent or reports closed — the channel handle is not consulted for that
decision. -/
theorem C10_manual_single_attempt (env : Env) (s : MState) :
    ∃ b : Bool, ∃ s' : MState,
      ManualPublisher.publish_skill_event env s = (Except.ok b, s')
      ∧ s'.nPub ≤ s.nPub + 1
      ∧ s'.closeCalls = s.closeCalls
      ∧ s'.nClChan = s.nClChan
      ∧ s'.nClConn = s.nClConn
      ∧ s'.sleeps = s.sleeps
      ∧ s'.nPde = s.nPde
      ∧ s'.connectCalls
          = s.connectCalls + (if handleDown s.connection then 1 else 0) := by
  unfold ManualPublisher.publish_skill_event
  by_cases hd : handleDown s.connection = true
  · rw [if_pos hd]
    rcases hc : ManualPublisher.connect env s with ⟨r, s1⟩
    have hframe := manual_connect_frame env s
    rw [hc] at hframe
    dsimp only at hframe
    rcases hframe with ⟨f1, f2, f3, f4, f5, f6, f7⟩
    cases r with
    | error u =>
      refine ⟨false, s1, rfl, ?_, f2, f3, f4, f5, f6, ?_⟩
      · omega
      · rw [f7, if_pos hd]
    | ok u =>
      dsimp only
      rcases hch : s1.channel with _ | ch
      · refine ⟨false, s1, rfl, ?_, f2, f3, f4, f5, f6, ?_⟩
        · omega
        · rw [f7, if_pos hd]
      · dsimp only [primPub]
        refine ⟨env.pub s1.nPub, _, rfl, ?_, ?_⟩
        · simp only
          omega
        · rw [if_pos hd]
          exact ⟨f2, f3, f4, f5, f6, by rw [f7]⟩
  · rw [if_neg hd]
    dsimp only
    rcases hch : s.channel with _ | ch
    · refine ⟨false, s, rfl, by omega, rfl, rfl, rfl, rfl, rfl, ?_⟩
      simp [hd]
    · dsimp only [primPub]
      refine ⟨env.pub s.nPub, _, rfl, by simp, rfl, rfl, rfl, rfl, rfl, ?_⟩
      simp [hd]

/-- C4: with the broker unreachable — every `pika.BlockingConnection`
attempt raises — `publish_skill_event` from a disconnected publisher
returns `False` without raising; the connection is torn down via
`_close_connection` during every attempt, the last included (twice inside
each attempt's failing `connect`/`_ensure_connection`, plus the retry
handler's teardown after the first two attempts: 8 invocations in all), and
the final state is fully torn down (`connection = channel = None`); the two
inter-attempt sleeps are 1 and 2 time units. -/
theorem C4_broker_unreachable (env : Env) (s : MState)
    (hc : s.connection = none) (hch : s.channel = none)
    (hdown : ∀ k, env.newConn k = false) :
    RabbitMQPublisher.publish_skill_event env s
      = (Except.ok false,
         { s with nConn := s.nConn + 6
                  connectCalls := s.connectCalls + 6
                  closeCalls := s.closeCalls + 8
                  sleeps := s.sleeps ++ [1, 2] }) := by
  have hr : List.range RabbitMQPublisher.maxRetries = [0, 1, 2] := rfl
  unfold RabbitMQPublisher.publish_skill_event
  rw [hr]
  simp [RabbitMQPublisher.publishLoop, RabbitMQPublisher.attemptBody,
        RabbitMQPublisher.ensure_connection, RabbitMQPublisher.connect,
        close_connection_eq, primNewConn, handleDown, hc, hch, hdown,
        RabbitMQPublisher.maxRetries, RabbitMQPublisher.retryDelay]

/-- C4 witness: the theorem at the concrete connection-refusing broker and
a fresh publisher. -/
theorem C4_witness :
    (initState.connection = none ∧ initState.channel = none
      ∧ ∀ k, envDown.newConn k = false)
    ∧ RabbitMQPublisher.publish_skill_event envDown initState
        = (Except.ok false,
           { initState with nConn := initState.nConn + 6
                            connectCalls := initState.connectCalls + 6
                            closeCalls := initState.closeCalls + 8
                            sleeps := initState.sleeps ++ [1, 2] }) :=
  ⟨⟨rfl, rfl, fun _ => rfl⟩,
   C4_broker_unreachable envDown initState rfl rfl (fun _ => rfl)⟩

/-- C5: with connections succeeding but the broker refusing the first two
`basic_publish` calls and accepting the third, `publish_skill_event` from a
fresh publisher returns `True`; the connection handle is closed exactly
twice (`nClConn = 2`, likewise the channel) and opened three times
(`nConn = 3`: the initial open plus two reopens), and the recorded sleeps
are `[1, 2]` — delay `retry_delay * attempt_number`, linear, totalling 3
time units before the success. -/
theorem C5_third_attempt_succeeds (env : Env)
    (hc0 : env.newConn 0 = true) (hc1 : env.newConn 1 = true)
    (hc2 : env.newConn 2 = true)
    (hh0 : env.newChan 0 = true) (hh1 : env.newChan 1 = true)
    (hh2 : env.newChan 2 = true)
    (hd0 : env.declEx 0 = true) (hd1 : env.declEx 1 = true)
    (hd2 : env.declEx 2 = true)
    (hp0 : env.pub 0 = false) (hp1 : env.pub 1 = false)
    (hp2 : env.pub 2 = true) :
    RabbitMQPublisher.publish_skill_event env initState
      = (Except.ok true,
         { connection := some (Handle.mk false), channel := some (Handle.mk false)
           nConn := 3, nChan := 3, nDecl := 3, nClChan := 2, nClConn := 2
           nPde := 0, nPub := 3, closeCalls := 5, connectCalls := 3
           sleeps := [1, 2], accepted := true }) := by
  have hr : List.range RabbitMQPublisher.maxRetries = [0, 1, 2] := rfl
  unfold RabbitMQPublisher.publish_skill_event
  rw [hr]
  simp [RabbitMQPublisher.publishLoop, RabbitMQPublisher.attemptBody,
        RabbitMQPublisher.ensure_connection, RabbitMQPublisher.connect,
        close_connection_eq, primNewConn, primNewChan, primDeclEx, primPub,
        handleDown, initState, hc0, hc1, hc2, hh0, hh1, hh2, hd0, hd1, hd2,
        hp0, hp1, hp2, RabbitMQPublisher.maxRetries, RabbitMQPublisher.retryDelay]

/-- C5 witness: the theorem at the concrete third-time-lucky broker. -/
theorem C5_witness :
    (envThird.pub 0 = false ∧ envThird.pub 1 = false ∧ envThird.pub 2 = true)
    ∧ RabbitMQPublisher.publish_skill_event envThird initState
        = (Except.ok true,
           { connection := some (Handle.mk false), channel := some (Handle.mk false)
             nConn := 3, nChan := 3, nDecl := 3, nClChan := 2, nClConn := 2
             nPde := 0, nPub := 3, closeCalls := 5, connectCalls := 3
             sleeps := [1, 2], accepted := true }) :=
  ⟨⟨rfl, rfl, rfl⟩,
   C5_third_attempt_succeeds envThird rfl rfl rfl rfl rfl rfl rfl rfl rfl rfl rfl rfl⟩

/-- A publisher with both handles open (the state a successful `connect`
leaves). -/
def sOpen : MState :=
  { initState with connection := some (Handle.mk false)
                   channel := some (Handle.mk false) }

/-- C8: `close()` is idempotent from any state and under any primitive
outcomes: after one `close` both slots are `None` (state `Disconnected`); a
second `close` invokes no handle-close primitive and leaves the slots
`None`; and when both handles are live, one `close` attempts the channel
close and the connection close exactly once each — regardless of either
primitive's outcome, so an error in one never suppresses the other and no
error escapes. -/
theorem C8_close_idempotent (env : Env) (s : MState) :
    (RabbitMQPublisher.close env s).channel = none
    ∧ (RabbitMQPublisher.close env s).connection = none
    ∧ (RabbitMQPublisher.close env (RabbitMQPublisher.close env s)).channel = none
    ∧ (RabbitMQPublisher.close env (RabbitMQPublisher.close env s)).connection = none
    ∧ (RabbitMQPublisher.close env (RabbitMQPublisher.close env s)).nClChan
        = (RabbitMQPublisher.close env s).nClChan
    ∧ (RabbitMQPublisher.close env (RabbitMQPublisher.close env s)).nClConn
        = (RabbitMQPublisher.close env s).nClConn
    ∧ (s.channel = some (Handle.mk false) → s.connection = some (Handle.mk false) →
        (RabbitMQPublisher.close env s).nClChan = s.nClChan + 1
        ∧ (RabbitMQPublisher.close env s).nClConn = s.nClConn + 1) := by
  refine ⟨?_, ?_, ?_, ?_, ?_, ?_, ?_⟩ <;>
    simp [RabbitMQPublisher.close, close_connection_eq, handleDown]
  intro h1 h2
  simp [h1, h2]

/-- C8 witness: the theorem at a publisher with both handles open, under a
broker whose close primitives do not fail (any outcomes would do). -/
theorem C8_witness :
    (RabbitMQPublisher.close envUp sOpen).channel = none
    ∧ (RabbitMQPublisher.close envUp sOpen).connection = none
    ∧ (RabbitMQPublisher.close envUp (RabbitMQPublisher.close envUp sOpen)).channel = none
    ∧ (RabbitMQPublisher.close envUp (RabbitMQPublisher.close envUp sOpen)).connection = none
    ∧ (RabbitMQPublisher.close envUp (RabbitMQPublisher.close envUp sOpen)).nClChan
        = (RabbitMQPublisher.close envUp sOpen).nClChan
    ∧ (RabbitMQPublisher.close envUp (RabbitMQPublisher.close envUp sOpen)).nClConn
        = (RabbitMQPublisher.close envUp sOpen).nClConn
    ∧ ((RabbitMQPublisher.close envUp sOpen).nClChan = sOpen.nClChan + 1
       ∧ (RabbitMQPublisher.close envUp sOpen).nClConn = sOpen.nClConn + 1) := by
  have h := C8_close_idempotent envUp sOpen
  exact ⟨h.1, h.2.1, h.2.2.1, h.2.2.2.1, h.2.2.2.2.1, h.2.2.2.2.2.1,
         h.2.2.2.2.2.2 rfl rfl⟩

/-- The implicit handle invariant: the channel slot is populated only when
the connection slot is. -/
def handlesInv (s : MState) : Prop := s.channel ≠ none → s.connection ≠ none

theorem connect_inv (env : Env) (s : MState) :
    handlesInv (RabbitMQPublisher.connect env s).2 := by
  unfold RabbitMQPublisher.connect
  dsimp only
  rw [close_connection_eq]
  dsimp only [primNewConn, primNewChan, primDeclEx]
  split <;> (try split) <;> (try split) <;> simp [handlesInv]

theorem ensure_inv (env : Env) (s : MState) (h : handlesInv s) :
    handlesInv (RabbitMQPublisher.ensure_connection env s).2 := by
  unfold RabbitMQPublisher.ensure_connection
  by_cases hd : (handleDown s.connection || handleDown s.channel) = true
  · rw [if_pos hd]
    rcases hc : RabbitMQPublisher.connect env s with ⟨r, s1⟩
    cases r with
    | ok u =>
      have := connect_inv env s
      rw [hc] at this
      exact this
    | error u =>
      dsimp only
      exact connect_inv env s1
  · rw [if_neg hd]
    dsimp only [primPde]
    split
    · exact h
    · exact connect_inv env { s with nPde := s.nPde + 1 }

theorem attemptBody_inv (env : Env) (s : MState) (r : Except Unit Unit)
    (s1 : MState) (hb : RabbitMQPublisher.attemptBody env s = (r, s1))
    (h : handlesInv s) : handlesInv s1 := by
  unfold RabbitMQPublisher.attemptBody at hb
  rcases he : RabbitMQPublisher.ensure_connection env s with ⟨r2, s2⟩
  rw [he] at hb
  have h2 : handlesInv s2 := by
    have := ensure_inv env s h
    rw [he] at this
    exact this
  cases r2 with
  | error v =>
    cases hb
    exact h2
  | ok v =>
    dsimp only [primPub] at hb
    split at hb <;> (cases hb; exact h2)

theorem publishLoop_inv (env : Env) (l : List Nat) :
    ∀ s : MState, handlesInv s →
      handlesInv (RabbitMQPublisher.publishLoop env l s).2 := by
  induction l with
  | nil => intro s h; exact h
  | cons k rest ih =>
    intro s h
    unfold RabbitMQPublisher.publishLoop
    rcases hb : RabbitMQPublisher.attemptBody env s with ⟨r, s1⟩
    have h1 : handlesInv s1 := attemptBody_inv env s r s1 hb h
    cases r with
    | ok u => exact h1
    | error u =>
      dsimp only
      split
      · apply ih
        rw [close_connection_eq]
        intro hc
        exact absurd rfl hc
      · exact h1

theorem manual_connect_inv (env : Env) (s : MState) (h : handlesInv s) :
    handlesInv (ManualPublisher.connect env s).2 := by
  unfold ManualPublisher.connect
  dsimp only [primNewConn, primNewChan, primDeclEx]
  split
  · split
    · split <;> simp [handlesInv]
    · simp [handlesInv]
  · intro hch
    exact h hch

theorem manual_publish_inv (env : Env) (s : MState) (h : handlesInv s) :
    handlesInv (ManualPublisher.publish_skill_event env s).2 := by
  unfold ManualPublisher.publish_skill_event
  by_cases hd : handleDown s.connection = true
  · rw [if_pos hd]
    rcases hc : ManualPublisher.connect env s with ⟨r, s1⟩
    have h1 : handlesInv s1 := by
      have := manual_connect_inv env s h
      rw [hc] at this
      exact this
    cases r with
    | error u => exact h1
    | ok u =>
      dsimp only
      rcases hch : s1.channel with _ | ch
      · exact h1
      · dsimp only [primPub]
        intro hcc
        exact h1 (by rw [hch]; simp)
  · rw [if_neg hd]
    dsimp only
    rcases hch : s.channel with _ | ch
    · exact h
    · dsimp only [primPub]
      intro hcc
      exact h (by rw [hch]; simp)

/-- C9: `_close_connection` always leaves both slots `None` (hence so does
`close()`, and `connect()` starts from that state, `_close_connection`
being its first step); and every publisher operation — `connect`,
`_ensure_connection`, `publish_skill_event`, `close`, `health_check`, and
the manual-variant `connect` and `publish_skill_event` — preserves the
invariant that the channel slot is populated only together with the
connection slot. -/
theorem C9_handles_invariant (env : Env) (s : MState) :
    ((RabbitMQPublisher.close_connection env s).channel = none
      ∧ (RabbitMQPublisher.close_connection env s).connection = none)
    ∧ handlesInv (RabbitMQPublisher.connect env s).2
    ∧ (handlesInv s → handlesInv (RabbitMQPublisher.ensure_connection env s).2)
    ∧ (handlesInv s → handlesInv (RabbitMQPublisher.publish_skill_event env s).2)
    ∧ handlesInv (RabbitMQPublisher.close env s)
    ∧ (handlesInv s → handlesInv (RabbitMQPublisher.health_check env s).2)
    ∧ (handlesInv s → handlesInv (ManualPublisher.connect env s).2)
    ∧ (handlesInv s → handlesInv (ManualPublisher.publish_skill_event env s).2) := by
  refine ⟨⟨?_, ?_⟩, connect_inv env s, ensure_inv env s,
          publishLoop_inv env (List.range RabbitMQPublisher.maxRetries) s, ?_,
          ?_, manual_connect_inv env s, manual_publish_inv env s⟩
  · rw [close_connection_eq]
  · rw [close_connection_eq]
  · rw [RabbitMQPublisher.close, close_connection_eq]
    intro hc
    exact absurd rfl hc
  · intro h
    unfold RabbitMQPublisher.health_check
    rcases he : RabbitMQPublisher.ensure_connection env s with ⟨r, s1⟩
    have h1 : handlesInv s1 := by
      have := ensure_inv env s h
      rw [he] at this
      exact this
    cases r with
    | ok u => exact h1
    | error u => exact h1

/-- C9 witness: the conjunction at the healthy broker and a fresh
publisher. -/
theorem C9_witness :
    ((RabbitMQPublisher.close_connection envUp initState).channel = none
      ∧ (RabbitMQPublisher.close_connection envUp initState).connection = none)
    ∧ handlesInv (RabbitMQPublisher.connect envUp initState).2
    ∧ handlesInv (RabbitMQPublisher.ensure_connection envUp initState).2
    ∧ handlesInv (RabbitMQPublisher.publish_skill_event envUp initState).2
    ∧ handlesInv (RabbitMQPublisher.close envUp initState)
    ∧ handlesInv (RabbitMQPublisher.health_check envUp initState).2
    ∧ handlesInv (ManualPublisher.connect envUp initState).2
    ∧ handlesInv (ManualPublisher.publish_skill_event envUp initState).2 := by
  have h := C9_handles_invariant envUp initState
  have hinv : handlesInv initState := fun hc => absurd rfl hc
  exact ⟨h.1, h.2.1, h.2.2.1 hinv, h.2.2.2.1 hinv, h.2.2.2.2.1,
         h.2.2.2.2.2.1 hinv, h.2.2.2.2.2.2.1 hinv, h.2.2.2.2.2.2.2 hinv⟩
